import Mathlib

/-!
Shallow embedding of the FidelityInternational/go-ldap-client package
(source file with the disconnect-retry logic: the `ldapClient` package whose
`Client` carries a `disconnects` counter).

The external `ldap.Client` collaborator (the go-ldap library: network dial,
simple bind, search) is modelled as an oracle (`World`): every network
operation reads its outcome from the oracle at the current operation index
(the number of network operations performed so far).  Stateful Go methods
become explicit state passing: each embedded method takes the `Client` value
and the operation index and returns the updated client, the next index, the
list of network events it performed, and its result.  A Go nil-pointer
dereference (calling a method through a nil `Config` pointer or a nil
`ldap.Client` interface) is modelled by the `GoResult.panic` constructor.
-/

namespace LdapClient

/-- Raw bytes (e.g. the `CACertificates` PEM blob). -/
abbrev Bytes := List Nat

/-- Embeds the `Config` struct of the source. `ClientCertificates` entries
(`tls.Certificate` values) are opaque byte blobs here: the core only passes
them to the TLS layer. -/
structure Config where
  Attributes : List String
  Base : String
  BindDN : String
  BindPassword : String
  GroupFilter : String
  Host : String
  UserFilter : String
  Port : Int
  InsecureSkipVerify : Bool
  UseSSL : Bool
  ClientCertificates : List Bytes
  CACertificates : Bytes
deriving DecidableEq

/-- Embeds `ldap.Entry` (external collaborator): a distinguished name plus
named attributes, each with a list of values. -/
structure Entry where
  DN : String
  Attributes : List (String × List String)
deriving DecidableEq

/-- Embeds `ldap.Entry.GetAttributeValues`: the values of the first attribute
whose name matches exactly, or the empty list when the entry lacks it. -/
def Entry.GetAttributeValues (e : Entry) (attrName : String) : List String :=
  match e.Attributes.find? (fun p => p.1 == attrName) with
  | some p => p.2
  | none => []

/-- Embeds `ldap.Entry.GetAttributeValue`: the first value of the attribute,
or the empty string when there is none. -/
def Entry.GetAttributeValue (e : Entry) (attrName : String) : String :=
  match e.GetAttributeValues attrName with
  | [] => ""
  | v :: _ => v

/-- Embeds `ldap.SearchRequest` (the fields set by `ldap.NewSearchRequest`
that the core uses; the `Controls` argument is always nil). -/
structure SearchRequest where
  BaseDN : String
  Scope : Nat
  DerefAliases : Nat
  SizeLimit : Nat
  TimeLimit : Nat
  TypesOnly : Bool
  Filter : String
  Attributes : List String
deriving DecidableEq

/-- `ldap.ScopeWholeSubtree` -/
def ScopeWholeSubtree : Nat := 2

/-- `ldap.NeverDerefAliases` -/
def NeverDerefAliases : Nat := 0

/-- Outcome of an external search: the entries, or an error message. -/
inductive SearchOutcome where
  | ok (entries : List Entry)
  | err (msg : String)
deriving DecidableEq

/-- One network operation performed by the client, with the outcome the
external collaborator returned for it (`none`/`SearchOutcome.ok` = success). -/
inductive NetEvent where
  | bindOp (dn pw : String) (outcome : Option String)
  | dialOp (useSSL : Bool) (outcome : Option String)
  | searchOp (req : SearchRequest) (outcome : SearchOutcome)
deriving DecidableEq

/-- The oracle resolving every external call: outcome of the k-th network
operation when it is a simple bind / a transport dial / a search, plus the
(x509) answer to `AppendCertsFromPEM` on a given PEM blob. -/
structure World where
  bindOutcome : Nat → String → String → Option String
  dialOutcome : Nat → Option String
  searchOutcome : Nat → SearchRequest → SearchOutcome
  appendCertsFromPEM : Bytes → Bool

/-- Embeds the `Client` struct: the held connection (`none` = nil), the
configuration pointer (`none` = nil), and the `disconnects` retry counter. -/
structure Client where
  Conn : Option Unit
  Config : Option Config
  disconnects : Nat
deriving DecidableEq

/-- Result of running an embedded Go method: a value, or a runtime panic
(nil dereference). -/
inductive GoResult (α : Type) where
  | panic : GoResult α
  | ok : α → GoResult α
deriving DecidableEq

/-- The error message the source compares against to classify a bind failure
as "connection closed by the peer". -/
def connClosedErr : String := "LDAP Result Code 200 \"Network Error\": ldap: connection closed"

/-- Embeds `(*Client).Close`: nil-safe; drops the held connection. -/
def Client.Close (c : Client) : Client :=
  match c.Conn with
  | some _ => { c with Conn := none }
  | none => c

/-- Embeds `(*Client).connect` (given the already dereferenced config).  The
method first calls `Close`, so the prior connection is dropped in every case.
With `UseSSL`, a non-empty `CACertificates` blob that does not parse yields
the PEM error before any dial.  The dial outcome is read from the oracle.
Returns the new `Conn` field value, the next operation index, the events
performed, and the error result. -/
def connectFn (w : World) (cfg : Config) (n : Nat) :
    Option Unit × Nat × List NetEvent × Option String :=
  if cfg.UseSSL then
    if cfg.CACertificates.length > 0 ∧ ¬ w.appendCertsFromPEM cfg.CACertificates then
      (none, n, [], some "Could not append CA certs from PEM")
    else
      match w.dialOutcome n with
      | some e => (none, n + 1, [NetEvent.dialOp true (some e)], some e)
      | none => (some (), n + 1, [NetEvent.dialOp true none], none)
  else
    match w.dialOutcome n with
    | some e => (none, n + 1, [NetEvent.dialOp false (some e)], some e)
    | none => (some (), n + 1, [NetEvent.dialOp false none], none)

/-- Embeds `(*Client).Bind`: requires non-empty service credentials, issues
the simple bind over the held connection, and on the specific
connection-closed failure increments `disconnects` and, while the counter is
below 2, reconnects and retries recursively.  Any successful bind resets the
counter to 0.  Dereferencing a nil `Config` or calling through a nil `Conn`
is a panic. -/
def Client.Bind (w : World) (c : Client) (n : Nat) :
    GoResult (Client × Nat × List NetEvent × Option String) :=
  match c.Config with
  | none => GoResult.panic
  | some cfg =>
    if cfg.BindDN ≠ "" ∧ cfg.BindPassword ≠ "" then
      match c.Conn with
      | none => GoResult.panic
      | some _ =>
        match w.bindOutcome n cfg.BindDN cfg.BindPassword with
        | none => GoResult.ok ({ c with disconnects := 0 }, n + 1,
            [NetEvent.bindOp cfg.BindDN cfg.BindPassword none], none)
        | some err =>
          if err = connClosedErr then
            if h : c.disconnects + 1 < 2 then
              match connectFn w cfg (n + 1) with
              | (conn2, n2, evs2, some cerr) =>
                GoResult.ok ({ c with Conn := conn2, disconnects := c.disconnects + 1 }, n2,
                  NetEvent.bindOp cfg.BindDN cfg.BindPassword (some err) :: evs2, some cerr)
              | (conn2, n2, evs2, none) =>
                match Client.Bind w { c with Conn := conn2, disconnects := c.disconnects + 1 } n2 with
                | GoResult.panic => GoResult.panic
                | GoResult.ok (c3, n3, evs3, res3) =>
                  GoResult.ok (c3, n3,
                    NetEvent.bindOp cfg.BindDN cfg.BindPassword (some err) :: (evs2 ++ evs3), res3)
            else
              GoResult.ok ({ c with disconnects := c.disconnects + 1 }, n + 1,
                [NetEvent.bindOp cfg.BindDN cfg.BindPassword (some err)], some err)
          else
            GoResult.ok (c, n + 1,
              [NetEvent.bindOp cfg.BindDN cfg.BindPassword (some err)], some err)
    else
      GoResult.ok (c, n, [], some "BindDN or BindPassword was not set on Client config")
termination_by 2 - c.disconnects
decreasing_by simp; omega

/-- The value `&Client{}` returned by `New` on a construction failure. -/
def defaultClient : Client := { Conn := none, Config := none, disconnects := 0 }

/-- Embeds `New`: allocate a client holding the config, connect, then do the
initial service bind; on either failure return the default `&Client{}` value
together with the error. -/
def New (w : World) (config : Config) (n : Nat) :
    GoResult ((Client × Option String) × Nat × List NetEvent) :=
  match connectFn w config n with
  | (_, n1, evs1, some e) => GoResult.ok ((defaultClient, some e), n1, evs1)
  | (conn1, n1, evs1, none) =>
    match Client.Bind w { Conn := conn1, Config := some config, disconnects := 0 } n1 with
    | GoResult.panic => GoResult.panic
    | GoResult.ok (_c2, n2, evs2, some e) => GoResult.ok ((defaultClient, some e), n2, evs1 ++ evs2)
    | GoResult.ok (c2, n2, evs2, none) => GoResult.ok ((c2, none), n2, evs1 ++ evs2)

/-- The Go `map[string]string` built by `Authenticate`, as an association
list (keys kept unique by `mapSet`). -/
abbrev UserMap := List (String × String)

/-- Go map assignment `m[k] = v`: overwrite the binding if the key is
present, otherwise add it. -/
def mapSet : UserMap → String → String → UserMap
  | [], k, v => [(k, v)]
  | p :: rest, k, v => if p.1 = k then (k, v) :: rest else p :: mapSet rest k v

/-- Go map read `m[k]`: `some` of the bound value, `none` when absent. -/
def mapGet : UserMap → String → Option String
  | [], _ => none
  | p :: rest, k => if p.1 = k then some p.2 else mapGet rest k

/-- The `user` map built by the extraction loop of `Authenticate`: for each
configured attribute name, `user[attr] = entry.GetAttributeValue(attr)`. -/
def userAttributes (attrs : List String) (entry : Entry) : UserMap :=
  List.foldl (fun m attr => mapSet m attr (entry.GetAttributeValue attr)) [] attrs

/-- Models `fmt.Sprintf` for format strings whose only verbs are `%s` (the
shape of `UserFilter`, e.g. `(uid=%s)`): the first `%s` receives the
argument; any further `%s` renders as Go's missing-argument marker; with no
`%s` at all, Go appends its extra-argument marker. -/
def sprintfS (format arg : String) : String :=
  match format.splitOn "%s" with
  | [] => format
  | [s] => s ++ "%!(EXTRA string=" ++ arg ++ ")"
  | s :: rest => s ++ arg ++ String.intercalate "%!s(MISSING)" rest

/-- The `ldap.NewSearchRequest` call made by `Authenticate`: subtree scope
under `Base`, never dereference aliases, no size or time limit, not
types-only, the user filter with the username substituted, and the
configured attributes plus `"dn"`. -/
def authSearchRequest (cfg : Config) (username : String) : SearchRequest :=
  { BaseDN := cfg.Base
    Scope := ScopeWholeSubtree
    DerefAliases := NeverDerefAliases
    SizeLimit := 0
    TimeLimit := 0
    TypesOnly := false
    Filter := sprintfS cfg.UserFilter username
    Attributes := cfg.Attributes ++ ["dn"] }

/-- The result triple of `Authenticate`: the boolean, the user attribute map
(`none` = nil map), and the error (`none` = nil). -/
abbrev AuthResult := Bool × Option UserMap × Option String

/-- The body of `(*Client).Authenticate`, everything except the deferred
`c.Bind()`: entry-guard service bind, search for the username, result-count
checks, attribute extraction, and the one-shot validation bind as the
matched entry's DN with the supplied password (a direct `Conn.Bind`, not the
retrying `Bind`). -/
def Client.AuthBody (w : World) (c : Client) (username password : String) (n : Nat) :
    GoResult (Client × Nat × List NetEvent × AuthResult) :=
  match Client.Bind w c n with
  | GoResult.panic => GoResult.panic
  | GoResult.ok (c1, n1, evs1, some err) => GoResult.ok (c1, n1, evs1, (false, none, some err))
  | GoResult.ok (c1, n1, evs1, none) =>
    match c1.Config, c1.Conn with
    | some cfg, some _ =>
      let req := authSearchRequest cfg username
      match w.searchOutcome n1 req with
      | SearchOutcome.err e =>
        GoResult.ok (c1, n1 + 1, evs1 ++ [NetEvent.searchOp req (SearchOutcome.err e)],
          (false, none, some e))
      | SearchOutcome.ok entries =>
        let evs2 := evs1 ++ [NetEvent.searchOp req (SearchOutcome.ok entries)]
        match entries with
        | [] => GoResult.ok (c1, n1 + 1, evs2, (false, none, some "User does not exist"))
        | [entry] =>
          let userDN := entry.DN
          let user := userAttributes cfg.Attributes entry
          match w.bindOutcome (n1 + 1) userDN password with
          | some e =>
            GoResult.ok (c1, n1 + 2, evs2 ++ [NetEvent.bindOp userDN password (some e)],
              (false, some user, some e))
          | none =>
            GoResult.ok (c1, n1 + 2, evs2 ++ [NetEvent.bindOp userDN password none],
              (true, some user, none))
        | _ => GoResult.ok (c1, n1 + 1, evs2, (false, none, some "Too many entries returned"))
    | _, _ => GoResult.panic

/-- Embeds `(*Client).Authenticate`: runs the body, then the deferred
`c.Bind()` on the state the body left behind; the deferred bind's error is
discarded (Go discards the return value of a deferred call) while its state
changes and network operations take effect. -/
def Client.Authenticate (w : World) (c : Client) (username password : String) (n : Nat) :
    GoResult (Client × Nat × List NetEvent × AuthResult) :=
  match Client.AuthBody w c username password n with
  | GoResult.panic => GoResult.panic
  | GoResult.ok (c1, n1, evs1, res) =>
    match Client.Bind w c1 n1 with
    | GoResult.panic => GoResult.panic
    | GoResult.ok (c2, n2, evs2, _) => GoResult.ok (c2, n2, evs1 ++ evs2, res)

/-- Number of dial (reconnect) operations in an event trace. -/
def countDials (evs : List NetEvent) : Nat :=
  (evs.filter (fun e => match e with | NetEvent.dialOp _ _ => true | _ => false)).length

/-- Number of simple-bind operations in an event trace. -/
def countBinds (evs : List NetEvent) : Nat :=
  (evs.filter (fun e => match e with | NetEvent.bindOp _ _ _ => true | _ => false)).length

/-- Number of search operations in an event trace. -/
def countSearches (evs : List NetEvent) : Nat :=
  (evs.filter (fun e => match e with | NetEvent.searchOp _ _ => true | _ => false)).length

/-- Number of bind operations that failed with the connection-closed
signature in an event trace. -/
def countConnClosedFails (evs : List NetEvent) : Nat :=
  (evs.filter (fun e => match e with
    | NetEvent.bindOp _ _ (some m) => m = connClosedErr
    | _ => false)).length

/-- Every event of a `Bind` call is a dial or a service-credential bind
(no search, no foreign credentials). -/
def bindEventsOnly (cfg? : Option Config) (evs : List NetEvent) : Prop :=
  ∀ e ∈ evs, (∃ b o, e = NetEvent.dialOp b o) ∨
    ∃ cfg o, cfg? = some cfg ∧ e = NetEvent.bindOp cfg.BindDN cfg.BindPassword o

/-! Concrete fixtures used to instantiate the theorems below. -/

/-- A plain (non-SSL) configuration with non-empty service credentials. -/
def cfg0 : Config :=
  { Attributes := ["mail"]
    Base := "dc=example,dc=com"
    BindDN := "svc"
    BindPassword := "svcpw"
    GroupFilter := ""
    Host := "ldap.example.com"
    UserFilter := "(uid=%s)"
    Port := 389
    InsecureSkipVerify := false
    UseSSL := false
    ClientCertificates := []
    CACertificates := [] }

/-- `cfg0` with the service credentials left empty. -/
def cfgNoCreds : Config := { cfg0 with BindDN := "", BindPassword := "" }

/-- A freshly bound client holding `cfg0`. -/
def client0 : Client := { Conn := some (), Config := some cfg0, disconnects := 0 }

/-- A directory entry for the single-match scenarios. -/
def entry0 : Entry := { DN := "userDn", Attributes := [("mail", ["alice@example.com"])] }

/-- Oracle where every simple bind fails with the connection-closed
signature and every dial succeeds. -/
def wAllClosed : World :=
  { bindOutcome := fun _ _ _ => some connClosedErr
    dialOutcome := fun _ => none
    searchOutcome := fun _ _ => SearchOutcome.ok []
    appendCertsFromPEM := fun _ => true }

/-- Oracle where every simple bind fails with the connection-closed
signature and every dial fails. -/
def wDialFail : World :=
  { bindOutcome := fun _ _ _ => some connClosedErr
    dialOutcome := fun _ => some "dial tcp: connection refused"
    searchOutcome := fun _ _ => SearchOutcome.ok []
    appendCertsFromPEM := fun _ => true }

/-- Oracle where every operation succeeds and the search finds `entry0`. -/
def wOneUser : World :=
  { bindOutcome := fun _ _ _ => none
    dialOutcome := fun _ => none
    searchOutcome := fun _ _ => SearchOutcome.ok [entry0]
    appendCertsFromPEM := fun _ => true }

/-- Oracle where binds succeed and the search finds nothing. -/
def wNoUser : World :=
  { bindOutcome := fun _ _ _ => none
    dialOutcome := fun _ => none
    searchOutcome := fun _ _ => SearchOutcome.ok []
    appendCertsFromPEM := fun _ => true }

/-- Oracle where binds succeed and the search finds two entries. -/
def wTwoUsers : World :=
  { bindOutcome := fun _ _ _ => none
    dialOutcome := fun _ => none
    searchOutcome := fun _ _ => SearchOutcome.ok
      [{ DN := "dn1", Attributes := [] }, { DN := "dn2", Attributes := [] }]
    appendCertsFromPEM := fun _ => true }

/-- Oracle where service binds succeed but any other bind is rejected. -/
def wBadPassword : World :=
  { bindOutcome := fun _ dn _ => if dn = "svc" then none else some "ldap bind failed"
    dialOutcome := fun _ => none
    searchOutcome := fun _ _ => SearchOutcome.ok [entry0]
    appendCertsFromPEM := fun _ => true }

/-- Oracle where every simple bind is rejected with a plain (non
connection-closed) failure. -/
def wBindRejected : World :=
  { bindOutcome := fun _ _ _ => some "ldap bind failed"
    dialOutcome := fun _ => none
    searchOutcome := fun _ _ => SearchOutcome.ok []
    appendCertsFromPEM := fun _ => true }

/-- Oracle where only the very first bind succeeds (so the deferred
restoration bind of `Authenticate` fails) and the search finds nothing. -/
def wDeferFails : World :=
  { bindOutcome := fun n _ _ => if n = 0 then none else some "restoration failed"
    dialOutcome := fun _ => none
    searchOutcome := fun _ _ => SearchOutcome.ok []
    appendCertsFromPEM := fun _ => true }

/-! Helper lemmas about the event counters. -/

theorem countDials_append (a b : List NetEvent) :
    countDials (a ++ b) = countDials a + countDials b := by
  simp [countDials, List.filter_append]

theorem countBinds_append (a b : List NetEvent) :
    countBinds (a ++ b) = countBinds a + countBinds b := by
  simp [countBinds, List.filter_append]

theorem countSearches_append (a b : List NetEvent) :
    countSearches (a ++ b) = countSearches a + countSearches b := by
  simp [countSearches, List.filter_append]

theorem countConnClosedFails_append (a b : List NetEvent) :
    countConnClosedFails (a ++ b) = countConnClosedFails a + countConnClosedFails b := by
  simp [countConnClosedFails, List.filter_append]

theorem countConnClosedFails_cons_closedBind (dn pw : String) (evs : List NetEvent) :
    countConnClosedFails (NetEvent.bindOp dn pw (some connClosedErr) :: evs) =
    countConnClosedFails evs + 1 := by
  simp [countConnClosedFails, List.filter]

theorem countConnClosedFails_cons_dial (b : Bool) (o : Option String) (evs : List NetEvent) :
    countConnClosedFails (NetEvent.dialOp b o :: evs) = countConnClosedFails evs := by
  simp [countConnClosedFails, List.filter]

theorem countBinds_cons_bind (dn pw : String) (o : Option String) (evs : List NetEvent) :
    countBinds (NetEvent.bindOp dn pw o :: evs) = countBinds evs + 1 := by
  simp [countBinds, List.filter]

theorem countBinds_cons_dial (b : Bool) (o : Option String) (evs : List NetEvent) :
    countBinds (NetEvent.dialOp b o :: evs) = countBinds evs := by
  simp [countBinds, List.filter]

theorem countDials_cons_bind (dn pw : String) (o : Option String) (evs : List NetEvent) :
    countDials (NetEvent.bindOp dn pw o :: evs) = countDials evs := by
  simp [countDials, List.filter]

theorem countDials_cons_dial (b : Bool) (o : Option String) (evs : List NetEvent) :
    countDials (NetEvent.dialOp b o :: evs) = countDials evs + 1 := by
  simp [countDials, List.filter]

/-- A trace of dials and service binds only contains no searches. -/
theorem countSearches_of_bindEventsOnly (cfg? : Option Config) (evs : List NetEvent)
    (h : bindEventsOnly cfg? evs) : countSearches evs = 0 := by
  induction evs with
  | nil => simp [countSearches]
  | cons e rest ih =>
    have he := h e (by simp)
    have hrest : bindEventsOnly cfg? rest := fun x hx => h x (by simp [hx])
    rcases he with ⟨b, o, rfl⟩ | ⟨cfg, o, _, rfl⟩ <;>
      simp [countSearches, List.filter] at ih ⊢ <;> exact ih hrest

/-! Helper lemmas about `connectFn`. -/

/-- A successful `connect` always installs a live connection, consumes
exactly one dial, and performs exactly that dial. -/
theorem connectFn_ok (w : World) (cfg : Config) (m : Nat) (conn2 : Option Unit)
    (n2 : Nat) (evs2 : List NetEvent)
    (H : connectFn w cfg m = (conn2, n2, evs2, none)) :
    conn2 = some () ∧ n2 = m + 1 ∧ ∃ b, evs2 = [NetEvent.dialOp b none] := by
  unfold connectFn at H
  split at H
  · split at H
    · simp_all
    · cases hd : w.dialOutcome m <;> rw [hd] at H <;> simp_all
  · cases hd : w.dialOutcome m <;> rw [hd] at H <;> simp_all

/-- Whatever `connect` returns, its events are at most one dial (and nothing
else). -/
theorem connectFn_events (w : World) (cfg : Config) (m : Nat) (conn2 : Option Unit)
    (n2 : Nat) (evs2 : List NetEvent) (r : Option String)
    (H : connectFn w cfg m = (conn2, n2, evs2, r)) :
    evs2 = [] ∨ ∃ b o, evs2 = [NetEvent.dialOp b o] := by
  unfold connectFn at H
  split at H
  · split at H
    · simp_all
    · cases hd : w.dialOutcome m <;> rw [hd] at H <;>
        simp only [Prod.mk.injEq] at H <;>
        exact Or.inr ⟨true, _, H.2.2.1.symm⟩
  · cases hd : w.dialOutcome m <;> rw [hd] at H <;>
      simp only [Prod.mk.injEq] at H <;>
      exact Or.inr ⟨false, _, H.2.2.1.symm⟩

/-! Invariants of `Client.Bind`. -/

/-- `Bind` on a client whose counter is already at least 1 makes no
recursive retry: one bind at most, no dial, counter grows only on a
connection-closed failure, reset to 0 on success. -/
theorem bind_inv_aux (w : World) (c : Client) (n : Nat) (c' : Client) (n' : Nat)
    (evs : List NetEvent) (res : Option String) (hd : 1 ≤ c.disconnects)
    (H : Client.Bind w c n = GoResult.ok (c', n', evs, res)) :
    c'.Config = c.Config ∧
    (∃ cfg, c.Config = some cfg) ∧
    (res = none → c'.disconnects = 0 ∧ c'.Conn = some () ∧
      ∃ cfg, c.Config = some cfg ∧ cfg.BindDN ≠ "" ∧ cfg.BindPassword ≠ "") ∧
    (c'.disconnects = 0 ∨ c'.disconnects = c.disconnects + countConnClosedFails evs) ∧
    countConnClosedFails evs ≤ 1 ∧ countBinds evs ≤ 1 ∧ countDials evs = 0 ∧
    bindEventsOnly c.Config evs := by
  rw [Client.Bind] at H
  split at H
  · cases H
  · rename_i cfg hcfg
    split at H
    · rename_i hcred
      split at H
      · cases H
      · rename_i u hconn
        split at H
        · rename_i hb
          cases H
          refine ⟨rfl, ⟨cfg, hcfg⟩, ?_, Or.inl rfl, ?_, ?_, ?_, ?_⟩
          · exact fun _ => ⟨rfl, hconn, cfg, hcfg, hcred.1, hcred.2⟩
          · simp [countConnClosedFails]
          · simp [countBinds]
          · simp [countDials]
          · intro e he
            simp at he
            exact Or.inr ⟨cfg, none, hcfg, he⟩
        · rename_i err hb
          split at H
          · rename_i hclosed
            split at H
            · rename_i hlt
              omega
            · rename_i hlt
              cases H
              refine ⟨rfl, ⟨cfg, hcfg⟩, by simp, Or.inr ?_, ?_, ?_, ?_, ?_⟩
              · simp [countConnClosedFails, List.filter, hclosed]
              · simp [countConnClosedFails, List.filter, hclosed]
              · simp [countBinds]
              · simp [countDials]
              · intro e he
                simp at he
                exact Or.inr ⟨cfg, some err, hcfg, he⟩
          · rename_i hclosed
            cases H
            refine ⟨rfl, ⟨cfg, hcfg⟩, by simp, Or.inr ?_, ?_, ?_, ?_, ?_⟩
            · simp [countConnClosedFails, List.filter, hclosed]
            · simp [countConnClosedFails, List.filter, hclosed]
            · simp [countBinds]
            · simp [countDials]
            · intro e he
              simp at he
              exact Or.inr ⟨cfg, some err, hcfg, he⟩
    · rename_i hcred
      cases H
      refine ⟨rfl, ⟨cfg, hcfg⟩, by simp, Or.inr ?_, ?_, ?_, ?_, ?_⟩ <;>
        simp [countConnClosedFails, countBinds, countDials, bindEventsOnly]

/-- Master invariant of a top-level `Bind` call: the config is untouched;
success resets the counter to 0 and leaves a live connection with non-empty
credentials; the counter either ends at 0 or grows by exactly the number of
connection-closed bind failures of the call; at most two binds, at most two
connection-closed failures, at most one dial; all events are dials or
service-credential binds. -/
theorem bind_inv (w : World) (c : Client) (n : Nat) (c' : Client) (n' : Nat)
    (evs : List NetEvent) (res : Option String)
    (H : Client.Bind w c n = GoResult.ok (c', n', evs, res)) :
    c'.Config = c.Config ∧
    (∃ cfg, c.Config = some cfg) ∧
    (res = none → c'.disconnects = 0 ∧ c'.Conn = some () ∧
      ∃ cfg, c.Config = some cfg ∧ cfg.BindDN ≠ "" ∧ cfg.BindPassword ≠ "") ∧
    (c'.disconnects = 0 ∨ c'.disconnects = c.disconnects + countConnClosedFails evs) ∧
    countConnClosedFails evs ≤ 2 ∧ countBinds evs ≤ 2 ∧ countDials evs ≤ 1 ∧
    bindEventsOnly c.Config evs := by
  rcases Nat.eq_zero_or_pos c.disconnects with hd | hd
  · rw [Client.Bind] at H
    split at H
    · cases H
    · rename_i cfg hcfg
      split at H
      · rename_i hcred
        split at H
        · cases H
        · rename_i u hconn
          split at H
          · rename_i hb
            cases H
            refine ⟨rfl, ⟨cfg, hcfg⟩, ?_, Or.inl rfl, ?_, ?_, ?_, ?_⟩
            · exact fun _ => ⟨rfl, hconn, cfg, hcfg, hcred.1, hcred.2⟩
            · simp [countConnClosedFails]
            · simp [countBinds]
            · simp [countDials]
            · intro e he
              simp at he
              exact Or.inr ⟨cfg, none, hcfg, he⟩
          · rename_i err hb
            split at H
            · rename_i hclosed
              split at H
              · rename_i hlt
                split at H
                · rename_i _x conn2 n2 evs2 cerr hcfn
                  rcases connectFn_events w cfg (n + 1) conn2 n2 evs2 (some cerr) hcfn with
                    hevs2 | ⟨b, o, hevs2⟩ <;> subst hevs2 <;> cases H <;>
                    refine ⟨rfl, ⟨cfg, hcfg⟩, by simp, Or.inr ?_, ?_, ?_, ?_, ?_⟩
                  · simp [countConnClosedFails, List.filter, hclosed, hd]
                  · simp [countConnClosedFails, List.filter, hclosed]
                  · simp [countBinds]
                  · simp [countDials]
                  · intro e he
                    simp at he
                    exact Or.inr ⟨cfg, some err, hcfg, he⟩
                  · simp [countConnClosedFails, List.filter, hclosed, hd]
                  · simp [countConnClosedFails, List.filter, hclosed]
                  · simp [countBinds, List.filter]
                  · simp [countDials, List.filter]
                  · intro e he
                    simp at he
                    rcases he with he | he
                    · exact Or.inr ⟨cfg, some err, hcfg, he⟩
                    · exact Or.inl ⟨b, o, he⟩
                · rename_i _x conn2 n2 evs2 hcfn
                  split at H
                  · cases H
                  · rename_i _y c3 n3 evs3 res3 hrec
                    obtain ⟨hc2, hn2, b, hevs2⟩ := connectFn_ok w cfg (n + 1) conn2 n2 evs2 hcfn
                    subst hc2; subst hevs2
                    have haux := bind_inv_aux w
                      { c with Conn := some (), disconnects := c.disconnects + 1 } n2 c3 n3
                      evs3 res3 (by simp) hrec
                    obtain ⟨hA, _, hB, hC, hD, hE, hF, hG⟩ := haux
                    simp only at hA hB hC
                    cases H
                    refine ⟨hA, ⟨cfg, hcfg⟩, ?_, ?_, ?_, ?_, ?_, ?_⟩
                    · intro hres
                      obtain ⟨h1, h2, cfg', hcfg', hbd, hbp⟩ := hB hres
                      exact ⟨h1, h2, cfg, hcfg, hcred.1, hcred.2⟩
                    · rcases hC with hC | hC
                      · exact Or.inl hC
                      · right
                        rw [hC]
                        simp [countConnClosedFails_append, countConnClosedFails,
                          List.filter, hclosed, hd]
                        omega
                    · subst hclosed
                      simp only [List.singleton_append]
                      rw [countConnClosedFails_cons_closedBind, countConnClosedFails_cons_dial]
                      omega
                    · simp only [List.singleton_append]
                      rw [countBinds_cons_bind, countBinds_cons_dial]
                      omega
                    · simp only [List.singleton_append]
                      rw [countDials_cons_bind, countDials_cons_dial]
                      omega
                    · intro e he
                      simp at he
                      rcases he with he | he | he
                      · exact Or.inr ⟨cfg, some err, hcfg, he⟩
                      · exact Or.inl ⟨b, none, he⟩
                      · rcases hG e he with h | ⟨cfg', o, hcfg', hev⟩
                        · exact Or.inl h
                        · simp only at hcfg'
                          rw [hcfg] at hcfg'
                          cases hcfg'
                          exact Or.inr ⟨cfg, o, hcfg, hev⟩
              · rename_i hlt
                omega
            · rename_i hclosed
              cases H
              refine ⟨rfl, ⟨cfg, hcfg⟩, by simp, Or.inr ?_, ?_, ?_, ?_, ?_⟩
              · simp [countConnClosedFails, List.filter, hclosed]
              · simp [countConnClosedFails, List.filter, hclosed]
              · simp [countBinds]
              · simp [countDials]
              · intro e he
                simp at he
                exact Or.inr ⟨cfg, some err, hcfg, he⟩
      · rename_i hcred
        cases H
        refine ⟨rfl, ⟨cfg, hcfg⟩, by simp, Or.inr ?_, ?_, ?_, ?_, ?_⟩ <;>
          simp [countConnClosedFails, countBinds, countDials, bindEventsOnly]
  · obtain ⟨hA, hB, hC, hD, hE, hF, hG, hH⟩ :=
      bind_inv_aux w c n c' n' evs res hd H
    exact ⟨hA, hB, hC, hD, by omega, by omega, by omega, hH⟩

/-- `Bind` on a client with a config and a live connection does not panic
(counter already ≥ 1, so no recursive retry can happen). -/
theorem bind_not_panic_aux (w : World) (c : Client) (n : Nat) (cfg : Config)
    (hd : 1 ≤ c.disconnects) (hcfg : c.Config = some cfg) (hconn : c.Conn = some ())
    (H : Client.Bind w c n = GoResult.panic) : False := by
  rw [Client.Bind] at H
  split at H
  · rename_i hnone
    rw [hcfg] at hnone
    cases hnone
  · split at H
    · split at H
      · rename_i hnone
        rw [hconn] at hnone
        cases hnone
      · split at H
        · cases H
        · split at H
          · split at H
            · rename_i hlt
              omega
            · cases H
          · cases H
    · cases H

/-- `Bind` on a client with a config and a live connection does not panic. -/
theorem bind_not_panic (w : World) (c : Client) (n : Nat) (cfg : Config)
    (hcfg : c.Config = some cfg) (hconn : c.Conn = some ())
    (H : Client.Bind w c n = GoResult.panic) : False := by
  rcases Nat.eq_zero_or_pos c.disconnects with hd | hd
  · rw [Client.Bind] at H
    split at H
    · rename_i hnone
      rw [hcfg] at hnone
      cases hnone
    · rename_i cfg' hcfg'
      rw [hcfg] at hcfg'
      cases hcfg'
      split at H
      · split at H
        · rename_i hnone
          rw [hconn] at hnone
          cases hnone
        · split at H
          · cases H
          · split at H
            · split at H
              · split at H
                · cases H
                · rename_i _x conn2 n2 evs2 hcfn
                  split at H
                  · rename_i hrec
                    obtain ⟨hc2, -, -⟩ := connectFn_ok w cfg (n + 1) conn2 n2 evs2 hcfn
                    subst hc2
                    exact bind_not_panic_aux w
                      { c with Conn := some (), disconnects := c.disconnects + 1 } n2 cfg
                      (by simp) (by simpa using hcfg) (by simp) hrec
                  · cases H
              · cases H
            · cases H
      · cases H
  · exact bind_not_panic_aux w c n cfg hd hcfg hconn H

/-- Existential form of `bind_not_panic`. -/
theorem bind_ok (w : World) (c : Client) (n : Nat) (cfg : Config)
    (hcfg : c.Config = some cfg) (hconn : c.Conn = some ()) :
    ∃ out, Client.Bind w c n = GoResult.ok out := by
  rcases hout : Client.Bind w c n with _ | out
  · exact absurd hout (fun h => bind_not_panic w c n cfg hcfg hconn h)
  · exact ⟨out, rfl⟩

/-! Exact runs of `Bind` when the counter is already ≥ 1 (no retry possible). -/

theorem bind_pos_success (w : World) (c : Client) (n : Nat) (cfg : Config)
    (_hd : 1 ≤ c.disconnects) (hcfg : c.Config = some cfg)
    (hbd : cfg.BindDN ≠ "") (hbp : cfg.BindPassword ≠ "") (hconn : c.Conn = some ())
    (hb : w.bindOutcome n cfg.BindDN cfg.BindPassword = none) :
    Client.Bind w c n = GoResult.ok ({ c with disconnects := 0 }, n + 1,
      [NetEvent.bindOp cfg.BindDN cfg.BindPassword none], none) := by
  have step : ∀ out, Client.Bind w c n = out → out = GoResult.ok ({ c with disconnects := 0 },
      n + 1, [NetEvent.bindOp cfg.BindDN cfg.BindPassword none], none) := by
    intro out H
    rw [Client.Bind] at H
    split at H
    · rename_i hnone
      rw [hcfg] at hnone
      cases hnone
    · rename_i cfg' hcfg'
      rw [hcfg] at hcfg'
      cases hcfg'
      split at H
      · split at H
        · rename_i hnone
          rw [hconn] at hnone
          cases hnone
        · split at H
          · exact H.symm
          · rename_i err hbe
            rw [hb] at hbe
            cases hbe
      · rename_i hcond
        exact absurd ⟨hbd, hbp⟩ hcond
  exact step _ rfl

theorem bind_pos_closed (w : World) (c : Client) (n : Nat) (cfg : Config)
    (hd : 1 ≤ c.disconnects) (hcfg : c.Config = some cfg)
    (hbd : cfg.BindDN ≠ "") (hbp : cfg.BindPassword ≠ "") (hconn : c.Conn = some ())
    (hb : w.bindOutcome n cfg.BindDN cfg.BindPassword = some connClosedErr) :
    Client.Bind w c n = GoResult.ok ({ c with disconnects := c.disconnects + 1 }, n + 1,
      [NetEvent.bindOp cfg.BindDN cfg.BindPassword (some connClosedErr)],
      some connClosedErr) := by
  have step : ∀ out, Client.Bind w c n = out →
      out = GoResult.ok ({ c with disconnects := c.disconnects + 1 }, n + 1,
        [NetEvent.bindOp cfg.BindDN cfg.BindPassword (some connClosedErr)],
        some connClosedErr) := by
    intro out H
    rw [Client.Bind] at H
    split at H
    · rename_i hnone
      rw [hcfg] at hnone
      cases hnone
    · rename_i cfg' hcfg'
      rw [hcfg] at hcfg'
      cases hcfg'
      split at H
      · split at H
        · rename_i hnone
          rw [hconn] at hnone
          cases hnone
        · split at H
          · rename_i hbe
            rw [hb] at hbe
            cases hbe
          · rename_i err hbe
            rw [hb] at hbe
            injection hbe with hbe
            subst hbe
            rw [if_pos rfl, dif_neg (by omega)] at H
            exact H.symm
      · rename_i hcond
        exact absurd ⟨hbd, hbp⟩ hcond
  exact step _ rfl

theorem bind_pos_other (w : World) (c : Client) (n : Nat) (cfg : Config) (e : String)
    (_hd : 1 ≤ c.disconnects) (hcfg : c.Config = some cfg)
    (hbd : cfg.BindDN ≠ "") (hbp : cfg.BindPassword ≠ "") (hconn : c.Conn = some ())
    (hb : w.bindOutcome n cfg.BindDN cfg.BindPassword = some e) (he : e ≠ connClosedErr) :
    Client.Bind w c n = GoResult.ok (c, n + 1,
      [NetEvent.bindOp cfg.BindDN cfg.BindPassword (some e)], some e) := by
  have step : ∀ out, Client.Bind w c n = out → out = GoResult.ok (c, n + 1,
      [NetEvent.bindOp cfg.BindDN cfg.BindPassword (some e)], some e) := by
    intro out H
    rw [Client.Bind] at H
    split at H
    · rename_i hnone
      rw [hcfg] at hnone
      cases hnone
    · rename_i cfg' hcfg'
      rw [hcfg] at hcfg'
      cases hcfg'
      split at H
      · split at H
        · rename_i hnone
          rw [hconn] at hnone
          cases hnone
        · split at H
          · rename_i hbe
            rw [hb] at hbe
            cases hbe
          · rename_i err hbe
            rw [hb] at hbe
            injection hbe with hbe
            subst hbe
            rw [if_neg he] at H
            exact H.symm
      · rename_i hcond
        exact absurd ⟨hbd, hbp⟩ hcond
  exact step _ rfl

/-- A `Bind` call whose config lacks a credential returns the config error
at once, changes nothing, and performs no network operation. -/
theorem bind_creds_empty (w : World) (c : Client) (n : Nat) (cfg : Config)
    (hcfg : c.Config = some cfg) (hcred : cfg.BindDN = "" ∨ cfg.BindPassword = "") :
    Client.Bind w c n =
      GoResult.ok (c, n, [], some "BindDN or BindPassword was not set on Client config") := by
  have step : ∀ out, Client.Bind w c n = out → out = GoResult.ok (c, n, [],
      some "BindDN or BindPassword was not set on Client config") := by
    intro out H
    rw [Client.Bind] at H
    split at H
    · rename_i hnone
      rw [hcfg] at hnone
      cases hnone
    · rename_i cfg' hcfg'
      rw [hcfg] at hcfg'
      cases hcfg'
      split at H
      · rename_i hcond
        rcases hcred with h | h
        · exact absurd h (by simpa using hcond.1)
        · exact absurd h (by simpa using hcond.2)
      · exact H.symm
  exact step _ rfl

/-! Lemmas about the Go-map model and the attribute-extraction loop. -/

theorem mapGet_mapSet (m : UserMap) (k v k' : String) :
    mapGet (mapSet m k v) k' = if k' = k then some v else mapGet m k' := by
  induction m with
  | nil =>
    by_cases h : k' = k <;> simp [mapSet, mapGet, h]
    exact fun h2 => absurd h2.symm h
  | cons p rest ih =>
    by_cases hp : p.1 = k
    · rw [mapSet, if_pos hp]
      by_cases h : k' = k
      · simp [mapGet, h]
      · simp only [mapGet, if_neg h]
        have : ¬ (k = k') := fun hh => h hh.symm
        rw [if_neg this, if_neg (by rw [hp]; exact fun hh => h hh.symm)]
    · rw [mapSet, if_neg hp]
      by_cases h : k' = k
      · subst h
        rw [mapGet, if_neg hp, ih, if_pos rfl, if_pos rfl]
      · rw [if_neg h]
        by_cases hpk : p.1 = k'
        · simp [mapGet, hpk]
        · simp only [mapGet, if_neg hpk]
          rw [ih, if_neg h]

theorem mapKeys_mapSet (m : UserMap) (k v k' : String) :
    k' ∈ (mapSet m k v).map Prod.fst ↔ k' ∈ m.map Prod.fst ∨ k' = k := by
  induction m with
  | nil => simp [mapSet]
  | cons p rest ih =>
    by_cases hp : p.1 = k
    · rw [mapSet, if_pos hp]
      subst hp
      simp
      tauto
    · rw [mapSet, if_neg hp]
      simp only [List.map_cons, List.mem_cons, ih]
      tauto

theorem mapKeys_nodup_mapSet (m : UserMap) (k v : String)
    (h : (m.map Prod.fst).Nodup) : ((mapSet m k v).map Prod.fst).Nodup := by
  induction m with
  | nil => simp [mapSet]
  | cons p rest ih =>
    simp only [List.map_cons, List.nodup_cons] at h
    by_cases hp : p.1 = k
    · rw [mapSet, if_pos hp]
      subst hp
      simp only [List.map_cons, List.nodup_cons]
      exact h
    · rw [mapSet, if_neg hp]
      simp only [List.map_cons, List.nodup_cons]
      refine ⟨?_, ih h.2⟩
      rw [mapKeys_mapSet]
      push_neg
      exact ⟨h.1, hp⟩

/-- The extraction loop, started from any map: a key in `attrs` ends bound
to its extracted value; other keys keep their prior binding. -/
theorem mapGet_foldl (entry : Entry) (attrs : List String) (m : UserMap) (k : String) :
    mapGet (List.foldl (fun acc a => mapSet acc a (entry.GetAttributeValue a)) m attrs) k =
    if k ∈ attrs then some (entry.GetAttributeValue k) else mapGet m k := by
  induction attrs generalizing m with
  | nil => simp
  | cons a rest ih =>
    simp only [List.foldl_cons, ih, mapGet_mapSet, List.mem_cons]
    by_cases hr : k ∈ rest
    · simp [hr]
    · by_cases ha : k = a
      · subst ha
        simp [hr]
      · simp [hr, ha]

theorem mapKeys_foldl (entry : Entry) (attrs : List String) (m : UserMap) (k : String) :
    k ∈ (List.foldl (fun acc a => mapSet acc a (entry.GetAttributeValue a)) m attrs).map Prod.fst ↔
    k ∈ m.map Prod.fst ∨ k ∈ attrs := by
  induction attrs generalizing m with
  | nil => simp
  | cons a rest ih =>
    simp only [List.foldl_cons, ih, mapKeys_mapSet, List.mem_cons]
    tauto

theorem mapKeys_nodup_foldl (entry : Entry) (attrs : List String) (m : UserMap)
    (h : (m.map Prod.fst).Nodup) :
    ((List.foldl (fun acc a => mapSet acc a (entry.GetAttributeValue a)) m attrs).map
      Prod.fst).Nodup := by
  induction attrs generalizing m with
  | nil => simpa
  | cons a rest ih =>
    simp only [List.foldl_cons]
    exact ih _ (mapKeys_nodup_mapSet m a _ h)

/-- `GetAttributeValue` is the head of the attribute's value list, or the
empty string when the entry lacks the attribute. -/
theorem getAttributeValue_eq_headD (e : Entry) (a : String) :
    e.GetAttributeValue a = (e.GetAttributeValues a).headD "" := by
  rw [Entry.GetAttributeValue]
  cases e.GetAttributeValues a <;> simp

/-! Runs of `AuthBody` and `Authenticate` in each scenario. -/

theorem authBody_guard_fail (w : World) (c : Client) (username password : String) (n : Nat)
    (c1 : Client) (n1 : Nat) (evs1 : List NetEvent) (err : String)
    (H : Client.Bind w c n = GoResult.ok (c1, n1, evs1, some err)) :
    Client.AuthBody w c username password n =
      GoResult.ok (c1, n1, evs1, (false, none, some err)) := by
  simp only [Client.AuthBody, H]

theorem authBody_search_err (w : World) (c : Client) (username password : String) (n : Nat)
    (c1 : Client) (n1 : Nat) (evs1 : List NetEvent) (cfg : Config) (e : String)
    (H : Client.Bind w c n = GoResult.ok (c1, n1, evs1, none))
    (hcfg1 : c1.Config = some cfg) (hconn1 : c1.Conn = some ())
    (hs : w.searchOutcome n1 (authSearchRequest cfg username) = SearchOutcome.err e) :
    Client.AuthBody w c username password n = GoResult.ok (c1, n1 + 1,
      evs1 ++ [NetEvent.searchOp (authSearchRequest cfg username) (SearchOutcome.err e)],
      (false, none, some e)) := by
  simp only [Client.AuthBody, H, hcfg1, hconn1, hs]

theorem authBody_zero (w : World) (c : Client) (username password : String) (n : Nat)
    (c1 : Client) (n1 : Nat) (evs1 : List NetEvent) (cfg : Config)
    (H : Client.Bind w c n = GoResult.ok (c1, n1, evs1, none))
    (hcfg1 : c1.Config = some cfg) (hconn1 : c1.Conn = some ())
    (hs : w.searchOutcome n1 (authSearchRequest cfg username) = SearchOutcome.ok []) :
    Client.AuthBody w c username password n = GoResult.ok (c1, n1 + 1,
      evs1 ++ [NetEvent.searchOp (authSearchRequest cfg username) (SearchOutcome.ok [])],
      (false, none, some "User does not exist")) := by
  simp only [Client.AuthBody, H, hcfg1, hconn1, hs]

theorem authBody_two (w : World) (c : Client) (username password : String) (n : Nat)
    (c1 : Client) (n1 : Nat) (evs1 : List NetEvent) (cfg : Config)
    (e1 e2 : Entry) (rest : List Entry)
    (H : Client.Bind w c n = GoResult.ok (c1, n1, evs1, none))
    (hcfg1 : c1.Config = some cfg) (hconn1 : c1.Conn = some ())
    (hs : w.searchOutcome n1 (authSearchRequest cfg username) =
      SearchOutcome.ok (e1 :: e2 :: rest)) :
    Client.AuthBody w c username password n = GoResult.ok (c1, n1 + 1,
      evs1 ++ [NetEvent.searchOp (authSearchRequest cfg username)
        (SearchOutcome.ok (e1 :: e2 :: rest))],
      (false, none, some "Too many entries returned")) := by
  simp only [Client.AuthBody, H, hcfg1, hconn1, hs]

theorem authBody_one_ok (w : World) (c : Client) (username password : String) (n : Nat)
    (c1 : Client) (n1 : Nat) (evs1 : List NetEvent) (cfg : Config) (entry : Entry)
    (H : Client.Bind w c n = GoResult.ok (c1, n1, evs1, none))
    (hcfg1 : c1.Config = some cfg) (hconn1 : c1.Conn = some ())
    (hs : w.searchOutcome n1 (authSearchRequest cfg username) = SearchOutcome.ok [entry])
    (hv : w.bindOutcome (n1 + 1) entry.DN password = none) :
    Client.AuthBody w c username password n = GoResult.ok (c1, n1 + 2,
      (evs1 ++ [NetEvent.searchOp (authSearchRequest cfg username) (SearchOutcome.ok [entry])])
        ++ [NetEvent.bindOp entry.DN password none],
      (true, some (userAttributes cfg.Attributes entry), none)) := by
  simp only [Client.AuthBody, H, hcfg1, hconn1, hs, hv]

theorem authBody_one_err (w : World) (c : Client) (username password : String) (n : Nat)
    (c1 : Client) (n1 : Nat) (evs1 : List NetEvent) (cfg : Config) (entry : Entry) (e : String)
    (H : Client.Bind w c n = GoResult.ok (c1, n1, evs1, none))
    (hcfg1 : c1.Config = some cfg) (hconn1 : c1.Conn = some ())
    (hs : w.searchOutcome n1 (authSearchRequest cfg username) = SearchOutcome.ok [entry])
    (hv : w.bindOutcome (n1 + 1) entry.DN password = some e) :
    Client.AuthBody w c username password n = GoResult.ok (c1, n1 + 2,
      (evs1 ++ [NetEvent.searchOp (authSearchRequest cfg username) (SearchOutcome.ok [entry])])
        ++ [NetEvent.bindOp entry.DN password (some e)],
      (false, some (userAttributes cfg.Attributes entry), some e)) := by
  simp only [Client.AuthBody, H, hcfg1, hconn1, hs, hv]

/-- `Authenticate` factors as the body followed by exactly one deferred
`Bind` on the state the body left; the body's result triple is returned
unchanged. -/
theorem authenticate_run (w : World) (c : Client) (username password : String) (n : Nat)
    (c1 : Client) (n1 : Nat) (evs1 : List NetEvent) (res : AuthResult) (cfg : Config)
    (HB : Client.AuthBody w c username password n = GoResult.ok (c1, n1, evs1, res))
    (hcfg1 : c1.Config = some cfg) (hconn1 : c1.Conn = some ()) :
    ∃ c2 n2 evs2 r2, Client.Bind w c1 n1 = GoResult.ok (c2, n2, evs2, r2) ∧
      Client.Authenticate w c username password n =
        GoResult.ok (c2, n2, evs1 ++ evs2, res) := by
  obtain ⟨⟨c2, n2, evs2, r2⟩, hD⟩ := bind_ok w c1 n1 cfg hcfg1 hconn1
  refine ⟨c2, n2, evs2, r2, hD, ?_⟩
  simp only [Client.Authenticate, HB, hD]

/-- The body can only produce `true` via the validation-success branch,
which carries no error and a present attribute map. -/
theorem authBody_true_imp (w : World) (c : Client) (username password : String) (n : Nat)
    (c1 : Client) (n1 : Nat) (evs1 : List NetEvent) (m : Option UserMap) (er : Option String)
    (H : Client.AuthBody w c username password n =
      GoResult.ok (c1, n1, evs1, (true, m, er))) :
    er = none ∧ ∃ um, m = some um := by
  unfold Client.AuthBody at H
  split at H
  · cases H
  · cases H
  · split at H
    · dsimp only at H
      split at H
      · cases H
      · split at H
        · cases H
        · split at H
          · cases H
          · cases H
            exact ⟨rfl, _, rfl⟩
        · cases H
    · cases H

/-- `Authenticate` never returns `true` together with a present error, and
a `true` result always carries a present attribute map. -/
theorem authenticate_true_imp (w : World) (c : Client) (username password : String) (n : Nat)
    (c2 : Client) (n2 : Nat) (evs : List NetEvent) (m : Option UserMap) (er : Option String)
    (H : Client.Authenticate w c username password n =
      GoResult.ok (c2, n2, evs, (true, m, er))) :
    er = none ∧ ∃ um, m = some um := by
  unfold Client.Authenticate at H
  split at H
  · cases H
  · rename_i c1' n1' evs1' res HB
    split at H
    · cases H
    · cases H
      exact authBody_true_imp w c username password n c1' n1' evs1' m er HB

/-! Claim theorems. -/

/-- **C8.** For every Client whose configuration has an empty `BindDN` or an
empty `BindPassword`, every call to `Bind` returns the configuration error
immediately and performs no network operation: the state and operation index
are unchanged and the event trace of the call is empty (no bind is issued
over the connection and no reconnect occurs). -/
theorem claim8_missing_creds_config_error (w : World) (c : Client) (n : Nat) (cfg : Config)
    (hcfg : c.Config = some cfg) (hcred : cfg.BindDN = "" ∨ cfg.BindPassword = "") :
    Client.Bind w c n =
      GoResult.ok (c, n, [], some "BindDN or BindPassword was not set on Client config") :=
  bind_creds_empty w c n cfg hcfg hcred

/-- Witness for C8: a concrete client with empty credentials. -/
theorem claim8_witness :
    Client.Bind wOneUser { Conn := some (), Config := some cfgNoCreds, disconnects := 0 } 0 =
      GoResult.ok ({ Conn := some (), Config := some cfgNoCreds, disconnects := 0 }, 0, [],
        some "BindDN or BindPassword was not set on Client config") :=
  claim8_missing_creds_config_error wOneUser
    { Conn := some (), Config := some cfgNoCreds, disconnects := 0 } 0 cfgNoCreds rfl
    (Or.inl rfl)

/-- **C2 (amended).** Within any single top-level `Bind` call the
`disconnects` counter is reset to 0 whenever the bind succeeds, and otherwise
either ends at 0 or grows by exactly the number of connection-closed bind
failures of the call (so it is incremented only on that signature); a call
sees at most two such failures, so a call starting from counter 0 ends at
most at 2.  (The original claim's global bound "never exceeds 2" fails
across consecutive failing calls: see the counterexample.) -/
theorem claim2_counter_rules (w : World) (c : Client) (n : Nat) (c' : Client) (n' : Nat)
    (evs : List NetEvent) (res : Option String)
    (H : Client.Bind w c n = GoResult.ok (c', n', evs, res)) :
    (res = none → c'.disconnects = 0) ∧
    (c'.disconnects = 0 ∨ c'.disconnects = c.disconnects + countConnClosedFails evs) ∧
    countConnClosedFails evs ≤ 2 ∧
    (c.disconnects = 0 → c'.disconnects ≤ 2) := by
  obtain ⟨-, -, hS, hD, hE, -, -, -⟩ := bind_inv w c n c' n' evs res H
  refine ⟨fun h => (hS h).1, hD, hE, fun h0 => ?_⟩
  rcases hD with h | h <;> omega

/-- Witness for C2: a concrete successful bind. -/
theorem claim2_witness :
    ((none : Option String) = none → client0.disconnects = 0) ∧
    (client0.disconnects = 0 ∨ client0.disconnects = client0.disconnects +
      countConnClosedFails [NetEvent.bindOp "svc" "svcpw" none]) ∧
    countConnClosedFails [NetEvent.bindOp "svc" "svcpw" none] ≤ 2 ∧
    (client0.disconnects = 0 → client0.disconnects ≤ 2) :=
  claim2_counter_rules wOneUser client0 0 client0 1 [NetEvent.bindOp "svc" "svcpw" none] none
    (by simp [Client.Bind, client0, cfg0, wOneUser])

/-- Counterexample for C2 as stated: two consecutive `Bind` calls, each
failing with the connection-closed signature (the first one retried once),
drive the `disconnects` field to 3, exceeding the claimed bound of 2. -/
theorem claim2_counterexample :
    Client.Bind wAllClosed client0 0 = GoResult.ok
      ({ Conn := some (), Config := some cfg0, disconnects := 2 }, 3,
       [NetEvent.bindOp "svc" "svcpw" (some connClosedErr),
        NetEvent.dialOp false none,
        NetEvent.bindOp "svc" "svcpw" (some connClosedErr)], some connClosedErr) ∧
    Client.Bind wAllClosed { Conn := some (), Config := some cfg0, disconnects := 2 } 3 =
      GoResult.ok ({ Conn := some (), Config := some cfg0, disconnects := 3 }, 4,
        [NetEvent.bindOp "svc" "svcpw" (some connClosedErr)], some connClosedErr) ∧
    2 < ({ Conn := some (), Config := some cfg0, disconnects := 3 } : Client).disconnects := by
  refine ⟨?_, ?_, by norm_num⟩ <;>
    simp [Client.Bind, client0, cfg0, connectFn, wAllClosed]

/-- **C4.** On every returning path of `Authenticate` (success, search
failure, zero matches, multiple matches, failed password-validation), the
returned triple is fully determined by the body, and the final state is
reached by exactly one further service `Bind` call — the deferred
restoration bind — performed after the result is determined: the call's
events are the body's events followed by exactly that one bind call's
events. -/
theorem claim4_restoration_once (w : World) (c : Client) (username password : String)
    (n : Nat) (c2 : Client) (n2 : Nat) (evs : List NetEvent) (res : AuthResult)
    (H : Client.Authenticate w c username password n = GoResult.ok (c2, n2, evs, res)) :
    ∃ c1 n1 evs1 evs2 r2,
      Client.AuthBody w c username password n = GoResult.ok (c1, n1, evs1, res) ∧
      Client.Bind w c1 n1 = GoResult.ok (c2, n2, evs2, r2) ∧ evs = evs1 ++ evs2 := by
  unfold Client.Authenticate at H
  split at H
  · cases H
  · rename_i c1' n1' evs1' res' HB
    split at H
    · cases H
    · rename_i _z c2' n2'' evs2' r2' hD
      cases H
      exact ⟨c1', n1', evs1', evs2', r2', HB, hD, rfl⟩

/-- Witness for C4: the concrete successful authentication run. -/
theorem claim4_witness :
    ∃ c1 n1 evs1 evs2 r2,
      Client.AuthBody wOneUser client0 "alice" "hunter2" 0 = GoResult.ok
        (c1, n1, evs1, (true, some [("mail", "alice@example.com")], none)) ∧
      Client.Bind wOneUser c1 n1 = GoResult.ok (client0, 4, evs2, r2) ∧
      [NetEvent.bindOp "svc" "svcpw" none,
       NetEvent.searchOp (authSearchRequest cfg0 "alice") (SearchOutcome.ok [entry0]),
       NetEvent.bindOp "userDn" "hunter2" none,
       NetEvent.bindOp "svc" "svcpw" none] = evs1 ++ evs2 :=
  claim4_restoration_once wOneUser client0 "alice" "hunter2" 0 client0 4
    [NetEvent.bindOp "svc" "svcpw" none,
     NetEvent.searchOp (authSearchRequest cfg0 "alice") (SearchOutcome.ok [entry0]),
     NetEvent.bindOp "userDn" "hunter2" none,
     NetEvent.bindOp "svc" "svcpw" none]
    (true, some [("mail", "alice@example.com")], none)
    (by simp [Client.Authenticate, Client.AuthBody, Client.Bind, client0, cfg0, connectFn,
      wOneUser, userAttributes, mapSet, entry0, Entry.GetAttributeValue,
      Entry.GetAttributeValues])

/-- **C10.** The returned triple of `Authenticate` is independent of the
outcome of the deferred restoration bind: when that final service rebind
fails with an error `e`, the call still returns exactly the body's triple
`res` — `e` is silently discarded and never replaces, wraps, or accompanies
the primary result. -/
theorem claim10_defer_error_discarded (w : World) (c : Client) (username password : String)
    (n : Nat) (c1 : Client) (n1 : Nat) (evs1 : List NetEvent) (res : AuthResult)
    (c2 : Client) (n2 : Nat) (evs2 : List NetEvent) (e : String)
    (HB : Client.AuthBody w c username password n = GoResult.ok (c1, n1, evs1, res))
    (HD : Client.Bind w c1 n1 = GoResult.ok (c2, n2, evs2, some e)) :
    Client.Authenticate w c username password n = GoResult.ok (c2, n2, evs1 ++ evs2, res) := by
  simp only [Client.Authenticate, HB, HD]

/-- Witness for C10: the deferred rebind fails with "restoration failed",
yet the triple is the body's "User does not exist" result. -/
theorem claim10_witness :
    Client.Authenticate wDeferFails client0 "bob" "pw" 0 = GoResult.ok (client0, 3,
      [NetEvent.bindOp "svc" "svcpw" none,
       NetEvent.searchOp (authSearchRequest cfg0 "bob") (SearchOutcome.ok []),
       NetEvent.bindOp "svc" "svcpw" (some "restoration failed")] ++ [],
      (false, none, some "User does not exist")) := by
  have h := claim10_defer_error_discarded wDeferFails client0 "bob" "pw" 0 client0 2
    [NetEvent.bindOp "svc" "svcpw" none,
     NetEvent.searchOp (authSearchRequest cfg0 "bob") (SearchOutcome.ok [])]
    (false, none, some "User does not exist") client0 3
    [NetEvent.bindOp "svc" "svcpw" (some "restoration failed")] "restoration failed"
    (by simp [Client.AuthBody, Client.Bind, client0, cfg0, wDeferFails])
    (by simp [Client.Bind, client0, cfg0, wDeferFails, connClosedErr])
  simpa using h

/-- **C1 (amended).** For a top-level `Bind` call with non-empty service
credentials whose retry counter is 0 at entry (the state after any
successful bind), when the underlying bind fails with the connection-closed
signature the client performs at most one reconnect and at most one retried
bind; when the reconnect succeeds it retries exactly once (exactly two binds
and one dial in the call), and if the retried bind also fails with the
signature the error is surfaced without any further retry, leaving the
counter at 2.  (The original "exactly once for every top-level call" fails
when the counter is not 0 at entry: see the counterexample.) -/
theorem claim1_retry_at_most_once (w : World) (c : Client) (n : Nat) (cfg : Config)
    (hcfg : c.Config = some cfg) (hbd : cfg.BindDN ≠ "") (hbp : cfg.BindPassword ≠ "")
    (hconn : c.Conn = some ()) (hd : c.disconnects = 0)
    (hb : w.bindOutcome n cfg.BindDN cfg.BindPassword = some connClosedErr) :
    ∃ c' n' evs res, Client.Bind w c n = GoResult.ok (c', n', evs, res) ∧
      countDials evs ≤ 1 ∧ countBinds evs ≤ 2 ∧
      (∀ conn2 n2 evs2, connectFn w cfg (n + 1) = (conn2, n2, evs2, none) →
        countDials evs = 1 ∧ countBinds evs = 2 ∧
        (w.bindOutcome n2 cfg.BindDN cfg.BindPassword = some connClosedErr →
          res = some connClosedErr ∧ c'.disconnects = 2)) := by
  rcases hout : Client.Bind w c n with _ | ⟨c', n', evs, res⟩
  · exact (bind_not_panic w c n cfg hcfg hconn hout).elim
  · refine ⟨c', n', evs, res, rfl, ?_⟩
    rw [Client.Bind] at hout
    split at hout
    · rename_i hnone
      rw [hcfg] at hnone
      cases hnone
    · rename_i cfg' hcfg'
      rw [hcfg] at hcfg'
      cases hcfg'
      split at hout
      · split at hout
        · rename_i hnone
          rw [hconn] at hnone
          cases hnone
        · split at hout
          · rename_i hbe
            rw [hb] at hbe
            cases hbe
          · rename_i err hbe
            rw [hb] at hbe
            injection hbe with hbe
            subst hbe
            rw [if_pos rfl, dif_pos (by omega : c.disconnects + 1 < 2)] at hout
            split at hout
            · rename_i _x conn2 n2 evs2 cerr hcfn
              rcases connectFn_events w cfg (n + 1) conn2 n2 evs2 (some cerr) hcfn with
                h2 | ⟨b, o, h2⟩ <;> subst h2 <;> cases hout
              · refine ⟨by simp [countDials, List.filter], by simp [countBinds, List.filter],
                  ?_⟩
                intro conn2' n2' evs2' h'
                rw [hcfn] at h'
                simp at h'
              · refine ⟨by simp [countDials, List.filter], by simp [countBinds, List.filter],
                  ?_⟩
                intro conn2' n2' evs2' h'
                rw [hcfn] at h'
                simp at h'
            · rename_i _x conn2 n2 evs2 hcfn
              obtain ⟨hc2, hn2, b, hevs2⟩ := connectFn_ok w cfg (n + 1) conn2 n2 evs2 hcfn
              subst hc2
              subst hevs2
              subst hn2
              split at hout
              · cases hout
              · rename_i _y c3 n3 evs3 res3 hrec
                cases hb2 : w.bindOutcome (n + 1 + 1) cfg.BindDN cfg.BindPassword with
                | none =>
                  have hrun := bind_pos_success w
                    { c with Conn := some (), disconnects := c.disconnects + 1 } (n + 1 + 1)
                    cfg (by simp) (by simpa using hcfg) hbd hbp (by simp) (by simpa using hb2)
                  rw [hrun] at hrec
                  cases hrec
                  cases hout
                  refine ⟨by simp [countDials, List.filter], by simp [countBinds, List.filter],
                    ?_⟩
                  intro conn2' n2' evs2' h'
                  rw [hcfn] at h'
                  simp only [Prod.mk.injEq] at h'
                  refine ⟨by simp [countDials, List.filter], by simp [countBinds, List.filter],
                    ?_⟩
                  intro hclosed2
                  rw [← h'.2.1] at hclosed2
                  rw [hb2] at hclosed2
                  cases hclosed2
                | some e2 =>
                  by_cases he2 : e2 = connClosedErr
                  · subst he2
                    have hrun := bind_pos_closed w
                      { c with Conn := some (), disconnects := c.disconnects + 1 } (n + 1 + 1)
                      cfg (by simp) (by simpa using hcfg) hbd hbp (by simp)
                      (by simpa using hb2)
                    rw [hrun] at hrec
                    cases hrec
                    cases hout
                    refine ⟨by simp [countDials, List.filter],
                      by simp [countBinds, List.filter], ?_⟩
                    intro conn2' n2' evs2' h'
                    rw [hcfn] at h'
                    simp only [Prod.mk.injEq] at h'
                    refine ⟨by simp [countDials, List.filter],
                      by simp [countBinds, List.filter], ?_⟩
                    intro _hclosed2
                    exact ⟨rfl, by simp [hd]⟩
                  · have hrun := bind_pos_other w
                      { c with Conn := some (), disconnects := c.disconnects + 1 } (n + 1 + 1)
                      cfg e2 (by simp) (by simpa using hcfg) hbd hbp (by simp)
                      (by simpa using hb2) he2
                    rw [hrun] at hrec
                    cases hrec
                    cases hout
                    refine ⟨by simp [countDials, List.filter],
                      by simp [countBinds, List.filter], ?_⟩
                    intro conn2' n2' evs2' h'
                    rw [hcfn] at h'
                    simp only [Prod.mk.injEq] at h'
                    refine ⟨by simp [countDials, List.filter],
                      by simp [countBinds, List.filter], ?_⟩
                    intro hclosed2
                    rw [← h'.2.1] at hclosed2
                    rw [hb2] at hclosed2
                    injection hclosed2 with hclosed2
                    exact absurd hclosed2 he2
      · rename_i hcond
        exact absurd ⟨hbd, hbp⟩ hcond

/-- Counterexample for C1 as stated: after one failed retry chain the
counter sits at 2; on the next top-level `Bind` call the underlying bind
again fails with the connection-closed signature, yet the client performs
no reconnect and no retried bind at all (one bind event, zero dials) —
not "exactly one" reconnect-and-retry. -/
theorem claim1_counterexample :
    Client.Bind wAllClosed client0 0 = GoResult.ok
      ({ Conn := some (), Config := some cfg0, disconnects := 2 }, 3,
       [NetEvent.bindOp "svc" "svcpw" (some connClosedErr),
        NetEvent.dialOp false none,
        NetEvent.bindOp "svc" "svcpw" (some connClosedErr)], some connClosedErr) ∧
    wAllClosed.bindOutcome 3 cfg0.BindDN cfg0.BindPassword = some connClosedErr ∧
    Client.Bind wAllClosed { Conn := some (), Config := some cfg0, disconnects := 2 } 3 =
      GoResult.ok ({ Conn := some (), Config := some cfg0, disconnects := 3 }, 4,
        [NetEvent.bindOp "svc" "svcpw" (some connClosedErr)], some connClosedErr) ∧
    countDials [NetEvent.bindOp "svc" "svcpw" (some connClosedErr)] = 0 ∧
    countBinds [NetEvent.bindOp "svc" "svcpw" (some connClosedErr)] = 1 := by
  refine ⟨?_, rfl, ?_, by simp [countDials, List.filter], by simp [countBinds, List.filter]⟩ <;>
    simp [Client.Bind, client0, cfg0, connectFn, wAllClosed]

/-- Witness for C1 (amended): a fresh client against the all-closed oracle. -/
theorem claim1_witness :
    ∃ c' n' evs res, Client.Bind wAllClosed client0 0 = GoResult.ok (c', n', evs, res) ∧
      countDials evs ≤ 1 ∧ countBinds evs ≤ 2 ∧
      (∀ conn2 n2 evs2, connectFn wAllClosed cfg0 (0 + 1) = (conn2, n2, evs2, none) →
        countDials evs = 1 ∧ countBinds evs = 2 ∧
        (wAllClosed.bindOutcome n2 cfg0.BindDN cfg0.BindPassword = some connClosedErr →
          res = some connClosedErr ∧ c'.disconnects = 2)) :=
  claim1_retry_at_most_once wAllClosed client0 0 cfg0 rfl (by simp [cfg0])
    (by simp [cfg0]) rfl rfl rfl

/-- **C3 (amended).** When the entry-guard bind of `Authenticate` fails with
an error and the failed guard left either a live connection or empty
configured credentials, `Authenticate` returns `(false, nil attributes,
that same bind error)` and performs no search and no user-validation bind:
every event of the call is a dial or a bind with the configured service
credentials.  (As stated the claim fails when the failed guard left no live
connection with non-empty credentials — e.g. the guard's reconnect dial
failed — because the deferred rebind then dereferences a nil connection and
the call panics instead of returning: see the counterexample.) -/
theorem claim3_guard_failure (w : World) (c : Client) (username password : String) (n : Nat)
    (c1 : Client) (n1 : Nat) (evs1 : List NetEvent) (err : String) (cfg : Config)
    (H : Client.Bind w c n = GoResult.ok (c1, n1, evs1, some err))
    (hcfg : c.Config = some cfg)
    (hsafe : c1.Conn = some () ∨ cfg.BindDN = "" ∨ cfg.BindPassword = "") :
    ∃ c2 n2 evs2, Client.Authenticate w c username password n =
      GoResult.ok (c2, n2, evs1 ++ evs2, (false, none, some err)) ∧
      countSearches (evs1 ++ evs2) = 0 ∧
      bindEventsOnly (some cfg) (evs1 ++ evs2) := by
  have HB := authBody_guard_fail w c username password n c1 n1 evs1 err H
  obtain ⟨hCfgEq, -, -, -, -, -, -, hEv1⟩ := bind_inv w c n c1 n1 evs1 (some err) H
  have hcfg1 : c1.Config = some cfg := by rw [hCfgEq, hcfg]
  have hdefer : ∃ c2 n2 evs2 r2, Client.Bind w c1 n1 = GoResult.ok (c2, n2, evs2, r2) ∧
      bindEventsOnly (some cfg) evs2 := by
    rcases hsafe with hc | hcred
    · obtain ⟨⟨c2, n2, evs2, r2⟩, hD⟩ := bind_ok w c1 n1 cfg hcfg1 hc
      obtain ⟨-, -, -, -, -, -, -, hEv2⟩ := bind_inv w c1 n1 c2 n2 evs2 r2 hD
      rw [hcfg1] at hEv2
      exact ⟨c2, n2, evs2, r2, hD, hEv2⟩
    · have hD := bind_creds_empty w c1 n1 cfg hcfg1 hcred
      exact ⟨c1, n1, [], _, hD, by intro e he; cases he⟩
  obtain ⟨c2, n2, evs2, r2, hD, hEv2⟩ := hdefer
  refine ⟨c2, n2, evs2, ?_, ?_, ?_⟩
  · simp only [Client.Authenticate, HB, hD]
  · rw [countSearches_append,
      countSearches_of_bindEventsOnly c.Config evs1 hEv1,
      countSearches_of_bindEventsOnly (some cfg) evs2 hEv2]
  · intro e he
    rcases List.mem_append.mp he with h1 | h2
    · rcases hEv1 e h1 with h | ⟨cfg', o, hcfg', hev⟩
      · exact Or.inl h
      · rw [hcfg] at hcfg'
        cases hcfg'
        exact Or.inr ⟨cfg, o, rfl, hev⟩
    · exact hEv2 e h2

/-- Counterexample for C3 as stated: the guard bind fails (connection-closed,
then the reconnect dial fails, so the guard returns the dial error and
leaves no connection); `Authenticate` then panics in the deferred rebind
instead of returning `(false, nil, error)`. -/
theorem claim3_counterexample :
    Client.Bind wDialFail client0 0 = GoResult.ok
      ({ Conn := none, Config := some cfg0, disconnects := 1 }, 2,
       [NetEvent.bindOp "svc" "svcpw" (some connClosedErr),
        NetEvent.dialOp false (some "dial tcp: connection refused")],
       some "dial tcp: connection refused") ∧
    Client.Authenticate wDialFail client0 "u" "p" 0 = GoResult.panic := by
  constructor <;>
    simp [Client.Authenticate, Client.AuthBody, Client.Bind, client0, cfg0, connectFn,
      wDialFail]

/-- Witness for C3 (amended): a guard bind rejected with a plain failure on
a live connection. -/
theorem claim3_witness :
    ∃ c2 n2 evs2, Client.Authenticate wBindRejected client0 "u" "p" 0 =
      GoResult.ok (c2, n2,
        [NetEvent.bindOp "svc" "svcpw" (some "ldap bind failed")] ++ evs2,
        (false, none, some "ldap bind failed")) ∧
      countSearches ([NetEvent.bindOp "svc" "svcpw" (some "ldap bind failed")] ++ evs2) = 0 ∧
      bindEventsOnly (some cfg0)
        ([NetEvent.bindOp "svc" "svcpw" (some "ldap bind failed")] ++ evs2) :=
  claim3_guard_failure wBindRejected client0 "u" "p" 0 client0 1
    [NetEvent.bindOp "svc" "svcpw" (some "ldap bind failed")] "ldap bind failed" cfg0
    (by simp [Client.Bind, client0, cfg0, wBindRejected, connClosedErr])
    rfl (Or.inl rfl)

/-- **C5.** When the entry-guard bind and the search both succeed: zero
entries yields `(false, nil attributes, "User does not exist")`; more than
one entry yields `(false, nil attributes, "Too many entries returned")`;
exactly one entry proceeds to attribute extraction (the returned map is
present and equals the extraction of the matched entry) and to the
validation bind as that entry's DN with the supplied password (such a bind
event occurs in the call). -/
theorem claim5_result_count_policy (w : World) (c : Client) (username password : String)
    (n : Nat) (c1 : Client) (n1 : Nat) (evs1 : List NetEvent) (cfg : Config)
    (H : Client.Bind w c n = GoResult.ok (c1, n1, evs1, none))
    (hcfg1 : c1.Config = some cfg) :
    (w.searchOutcome n1 (authSearchRequest cfg username) = SearchOutcome.ok [] →
      ∃ c2 n2 evs, Client.Authenticate w c username password n =
        GoResult.ok (c2, n2, evs, (false, none, some "User does not exist"))) ∧
    (∀ e1 e2 rest, w.searchOutcome n1 (authSearchRequest cfg username) =
        SearchOutcome.ok (e1 :: e2 :: rest) →
      ∃ c2 n2 evs, Client.Authenticate w c username password n =
        GoResult.ok (c2, n2, evs, (false, none, some "Too many entries returned"))) ∧
    (∀ entry, w.searchOutcome n1 (authSearchRequest cfg username) =
        SearchOutcome.ok [entry] →
      ∃ c2 n2 evs b er, Client.Authenticate w c username password n =
        GoResult.ok (c2, n2, evs, (b, some (userAttributes cfg.Attributes entry), er)) ∧
        ∃ o, NetEvent.bindOp entry.DN password o ∈ evs) := by
  obtain ⟨-, -, hS, -, -, -, -, -⟩ := bind_inv w c n c1 n1 evs1 none H
  obtain ⟨-, hconn1, -⟩ := hS rfl
  refine ⟨?_, ?_, ?_⟩
  · intro hs
    have HB := authBody_zero w c username password n c1 n1 evs1 cfg H hcfg1 hconn1 hs
    obtain ⟨c2, n2, evs2, r2, -, hA⟩ :=
      authenticate_run w c username password n c1 (n1 + 1) _ _ cfg HB hcfg1 hconn1
    exact ⟨c2, n2, _, hA⟩
  · intro e1 e2 rest hs
    have HB := authBody_two w c username password n c1 n1 evs1 cfg e1 e2 rest H hcfg1 hconn1 hs
    obtain ⟨c2, n2, evs2, r2, -, hA⟩ :=
      authenticate_run w c username password n c1 (n1 + 1) _ _ cfg HB hcfg1 hconn1
    exact ⟨c2, n2, _, hA⟩
  · intro entry hs
    cases hv : w.bindOutcome (n1 + 1) entry.DN password with
    | none =>
      have HB := authBody_one_ok w c username password n c1 n1 evs1 cfg entry H hcfg1
        hconn1 hs hv
      obtain ⟨c2, n2, evs2, r2, -, hA⟩ :=
        authenticate_run w c username password n c1 (n1 + 2) _ _ cfg HB hcfg1 hconn1
      exact ⟨c2, n2, _, true, none, hA, none, by simp⟩
    | some e =>
      have HB := authBody_one_err w c username password n c1 n1 evs1 cfg entry e H hcfg1
        hconn1 hs hv
      obtain ⟨c2, n2, evs2, r2, -, hA⟩ :=
        authenticate_run w c username password n c1 (n1 + 2) _ _ cfg HB hcfg1 hconn1
      exact ⟨c2, n2, _, false, some e, hA, some e, by simp⟩

/-- Witness for C5: the zero-entry conjunct against the empty directory. -/
theorem claim5_witness :
    (wNoUser.searchOutcome 1 (authSearchRequest cfg0 "bob") = SearchOutcome.ok [] →
      ∃ c2 n2 evs, Client.Authenticate wNoUser client0 "bob" "pw" 0 =
        GoResult.ok (c2, n2, evs, (false, none, some "User does not exist"))) ∧
    (∀ e1 e2 rest, wNoUser.searchOutcome 1 (authSearchRequest cfg0 "bob") =
        SearchOutcome.ok (e1 :: e2 :: rest) →
      ∃ c2 n2 evs, Client.Authenticate wNoUser client0 "bob" "pw" 0 =
        GoResult.ok (c2, n2, evs, (false, none, some "Too many entries returned"))) ∧
    (∀ entry, wNoUser.searchOutcome 1 (authSearchRequest cfg0 "bob") =
        SearchOutcome.ok [entry] →
      ∃ c2 n2 evs b er, Client.Authenticate wNoUser client0 "bob" "pw" 0 =
        GoResult.ok (c2, n2, evs, (b, some (userAttributes cfg0.Attributes entry), er)) ∧
        ∃ o, NetEvent.bindOp entry.DN "pw" o ∈ evs) :=
  claim5_result_count_policy wNoUser client0 "bob" "pw" 0 client0 1
    [NetEvent.bindOp "svc" "svcpw" none] cfg0
    (by simp [Client.Bind, client0, cfg0, wNoUser]) rfl

/-- **C6.** When the search returns exactly one entry, a bind is attempted
as that entry's DN with the supplied password: on success `Authenticate`
returns `(true, attribute map, nil)`; on failure it returns `(false,
attribute map, that bind error)` — the attribute map is present on both
paths; and (in general) `Authenticate` never returns `true` together with a
present error. -/
theorem claim6_validation_bind (w : World) (c : Client) (username password : String)
    (n : Nat) (c1 : Client) (n1 : Nat) (evs1 : List NetEvent) (cfg : Config) (entry : Entry)
    (H : Client.Bind w c n = GoResult.ok (c1, n1, evs1, none))
    (hcfg1 : c1.Config = some cfg)
    (hs : w.searchOutcome n1 (authSearchRequest cfg username) = SearchOutcome.ok [entry]) :
    (w.bindOutcome (n1 + 1) entry.DN password = none →
      ∃ c2 n2 evs, Client.Authenticate w c username password n = GoResult.ok (c2, n2, evs,
        (true, some (userAttributes cfg.Attributes entry), none))) ∧
    (∀ e, w.bindOutcome (n1 + 1) entry.DN password = some e →
      ∃ c2 n2 evs, Client.Authenticate w c username password n = GoResult.ok (c2, n2, evs,
        (false, some (userAttributes cfg.Attributes entry), some e))) ∧
    (∀ w' c' u' p' n' c2 n2 evs m er,
      Client.Authenticate w' c' u' p' n' = GoResult.ok (c2, n2, evs, (true, m, er)) →
      er = none) := by
  obtain ⟨-, -, hS, -, -, -, -, -⟩ := bind_inv w c n c1 n1 evs1 none H
  obtain ⟨-, hconn1, -⟩ := hS rfl
  refine ⟨?_, ?_, ?_⟩
  · intro hv
    have HB := authBody_one_ok w c username password n c1 n1 evs1 cfg entry H hcfg1
      hconn1 hs hv
    obtain ⟨c2, n2, evs2, r2, -, hA⟩ :=
      authenticate_run w c username password n c1 (n1 + 2) _ _ cfg HB hcfg1 hconn1
    exact ⟨c2, n2, _, hA⟩
  · intro e hv
    have HB := authBody_one_err w c username password n c1 n1 evs1 cfg entry e H hcfg1
      hconn1 hs hv
    obtain ⟨c2, n2, evs2, r2, -, hA⟩ :=
      authenticate_run w c username password n c1 (n1 + 2) _ _ cfg HB hcfg1 hconn1
    exact ⟨c2, n2, _, hA⟩
  · intro w' c' u' p' n' c2 n2 evs m er hA
    exact (authenticate_true_imp w' c' u' p' n' c2 n2 evs m er hA).1

/-- Witness for C6: the rejected-password conjunct against `wBadPassword`. -/
theorem claim6_witness :
    (wBadPassword.bindOutcome 2 entry0.DN "wrong" = none →
      ∃ c2 n2 evs, Client.Authenticate wBadPassword client0 "alice" "wrong" 0 =
        GoResult.ok (c2, n2, evs,
          (true, some (userAttributes cfg0.Attributes entry0), none))) ∧
    (∀ e, wBadPassword.bindOutcome 2 entry0.DN "wrong" = some e →
      ∃ c2 n2 evs, Client.Authenticate wBadPassword client0 "alice" "wrong" 0 =
        GoResult.ok (c2, n2, evs,
          (false, some (userAttributes cfg0.Attributes entry0), some e))) ∧
    (∀ w' c' u' p' n' c2 n2 evs m er,
      Client.Authenticate w' c' u' p' n' = GoResult.ok (c2, n2, evs, (true, m, er)) →
      er = none) :=
  claim6_validation_bind wBadPassword client0 "alice" "wrong" 0 client0 1
    [NetEvent.bindOp "svc" "svcpw" none] cfg0 entry0
    (by simp [Client.Bind, client0, cfg0, wBadPassword]) rfl rfl

/-- **C7.** When the search returns exactly one entry, the attribute map
returned by `Authenticate` is exactly the extraction of the matched entry:
it has exactly one binding per configured attribute name (keys are the
configured names, without duplicates), each bound to the first value of
that attribute on the entry, or to the empty string when the entry lacks
it — the key is never omitted. -/
theorem claim7_attribute_extraction (w : World) (c : Client) (username password : String)
    (n : Nat) (c1 : Client) (n1 : Nat) (evs1 : List NetEvent) (cfg : Config) (entry : Entry)
    (H : Client.Bind w c n = GoResult.ok (c1, n1, evs1, none))
    (hcfg1 : c1.Config = some cfg)
    (hs : w.searchOutcome n1 (authSearchRequest cfg username) = SearchOutcome.ok [entry]) :
    ∃ c2 n2 evs b er, Client.Authenticate w c username password n =
      GoResult.ok (c2, n2, evs, (b, some (userAttributes cfg.Attributes entry), er)) ∧
      (∀ a ∈ cfg.Attributes, mapGet (userAttributes cfg.Attributes entry) a =
        some ((entry.GetAttributeValues a).headD "")) ∧
      (∀ k, k ∈ (userAttributes cfg.Attributes entry).map Prod.fst ↔ k ∈ cfg.Attributes) ∧
      ((userAttributes cfg.Attributes entry).map Prod.fst).Nodup := by
  obtain ⟨-, -, hS, -, -, -, -, -⟩ := bind_inv w c n c1 n1 evs1 none H
  obtain ⟨-, hconn1, -⟩ := hS rfl
  have hmap : ∀ a ∈ cfg.Attributes, mapGet (userAttributes cfg.Attributes entry) a =
      some ((entry.GetAttributeValues a).headD "") := by
    intro a ha
    rw [userAttributes, mapGet_foldl, if_pos ha, getAttributeValue_eq_headD]
  have hkeys : ∀ k, k ∈ (userAttributes cfg.Attributes entry).map Prod.fst ↔
      k ∈ cfg.Attributes := by
    intro k
    rw [userAttributes, mapKeys_foldl]
    simp
  have hnodup : ((userAttributes cfg.Attributes entry).map Prod.fst).Nodup := by
    rw [userAttributes]
    exact mapKeys_nodup_foldl entry cfg.Attributes [] (by simp)
  cases hv : w.bindOutcome (n1 + 1) entry.DN password with
  | none =>
    have HB := authBody_one_ok w c username password n c1 n1 evs1 cfg entry H hcfg1
      hconn1 hs hv
    obtain ⟨c2, n2, evs2, r2, -, hA⟩ :=
      authenticate_run w c username password n c1 (n1 + 2) _ _ cfg HB hcfg1 hconn1
    exact ⟨c2, n2, _, true, none, hA, hmap, hkeys, hnodup⟩
  | some e =>
    have HB := authBody_one_err w c username password n c1 n1 evs1 cfg entry e H hcfg1
      hconn1 hs hv
    obtain ⟨c2, n2, evs2, r2, -, hA⟩ :=
      authenticate_run w c username password n c1 (n1 + 2) _ _ cfg HB hcfg1 hconn1
    exact ⟨c2, n2, _, false, some e, hA, hmap, hkeys, hnodup⟩

/-- Witness for C7: the one-entry directory with `mail` configured. -/
theorem claim7_witness :
    ∃ c2 n2 evs b er, Client.Authenticate wOneUser client0 "alice" "hunter2" 0 =
      GoResult.ok (c2, n2, evs, (b, some (userAttributes cfg0.Attributes entry0), er)) ∧
      (∀ a ∈ cfg0.Attributes, mapGet (userAttributes cfg0.Attributes entry0) a =
        some ((entry0.GetAttributeValues a).headD "")) ∧
      (∀ k, k ∈ (userAttributes cfg0.Attributes entry0).map Prod.fst ↔
        k ∈ cfg0.Attributes) ∧
      ((userAttributes cfg0.Attributes entry0).map Prod.fst).Nodup :=
  claim7_attribute_extraction wOneUser client0 "alice" "hunter2" 0 client0 1
    [NetEvent.bindOp "svc" "svcpw" none] cfg0 entry0
    (by simp [Client.Bind, client0, cfg0, wOneUser]) rfl rfl

/-- **C9 (amended).** On every construction failure (connect failure or
initial bind failure) `New` returns the default zero-valued `Client` with no
live connection, and `Close` on it is a safe no-op; but the value is not
fully usable: `Bind` and `Authenticate` on it dereference the nil `Config`
(and nil `Conn`) and panic.  (The original claim that all three public
operations are defined on the returned value fails: see the
counterexample.) -/
theorem claim9_default_client (w : World) (config : Config) (n : Nat)
    (cl : Client) (e : String) (n' : Nat) (evs : List NetEvent)
    (H : New w config n = GoResult.ok ((cl, some e), n', evs)) :
    cl = defaultClient ∧ cl.Conn = none ∧ Client.Close cl = cl ∧
    (∀ w2 m, Client.Bind w2 cl m = GoResult.panic) ∧
    (∀ w2 u p m, Client.Authenticate w2 cl u p m = GoResult.panic) := by
  have hcl : cl = defaultClient := by
    unfold New at H
    split at H
    · cases H
      rfl
    · split at H
      · cases H
      · cases H
        rfl
      · cases H
  subst hcl
  refine ⟨rfl, rfl, rfl, ?_, ?_⟩
  · intro w2 m
    simp [Client.Bind, defaultClient]
  · intro w2 u p m
    simp [Client.Authenticate, Client.AuthBody, Client.Bind, defaultClient]

/-- Counterexample for C9 as stated: construction fails on the dial, `New`
returns the default client, and both `Bind` and `Authenticate` on that
returned value panic (nil dereference) rather than being defined. -/
theorem claim9_counterexample :
    New wDialFail cfg0 0 = GoResult.ok
      ((defaultClient, some "dial tcp: connection refused"), 1,
       [NetEvent.dialOp false (some "dial tcp: connection refused")]) ∧
    Client.Bind wDialFail defaultClient 1 = GoResult.panic ∧
    Client.Authenticate wDialFail defaultClient "u" "p" 1 = GoResult.panic := by
  refine ⟨?_, ?_, ?_⟩ <;>
    simp [New, Client.Authenticate, Client.AuthBody, Client.Bind, defaultClient, connectFn,
      cfg0, wDialFail]

/-- Witness for C9 (amended): the concrete failed construction. -/
theorem claim9_witness :
    defaultClient = defaultClient ∧ defaultClient.Conn = none ∧
    Client.Close defaultClient = defaultClient ∧
    (∀ w2 m, Client.Bind w2 defaultClient m = GoResult.panic) ∧
    (∀ w2 u p m, Client.Authenticate w2 defaultClient u p m = GoResult.panic) :=
  claim9_default_client wDialFail cfg0 0 defaultClient "dial tcp: connection refused" 1
    [NetEvent.dialOp false (some "dial tcp: connection refused")]
    (by simp [New, connectFn, cfg0, wDialFail])

end LdapClient
